import Mathlib

/-!
Shallow embedding of the LinkedIn-automation core (Go sources:
`storage/storage.go`, `connection` package, `messaging/messaging.go`,
`main.go`) together with theorems settling the frozen claims about its
natural-language specification.

Modelling conventions:
* Go strings are Lean `String`s (byte slicing such as `note[:300]` is
  modelled as character-list slicing, which agrees on ASCII inputs).
* `time.Time` instants are `Nat` seconds; SQLite DATETIME comparison of
  `YYYY-MM-DD HH:MM:SS` strings is chronological comparison, so the day
  window arithmetic of `GetCountOfSentRequestsToday` is `Nat` division by
  86400 seconds.
* The SQLite tables are lists of records; the `UNIQUE` constraints of
  `InitDB` are enforced inside the save operations, exactly as the SQL
  engine would (`sent_requests.profile_url` unique and erroring,
  `message_records (profile_url, message, sent_at)` unique with
  `ON CONFLICT IGNORE`).
* The browser/stealth collaborators are an oracle environment of booleans
  saying which DOM lookups succeed; any platform failure (error return or
  `Must*` panic) aborts the operation before any ledger write.
-/

namespace LinkedinAuto

/-- `RequestStatus` from storage.go: pending/accepted/rejected/sent. -/
inductive RequestStatus where
  | pending
  | accepted
  | rejected
  | sent
deriving DecidableEq

/-- `SentRequest` row of the `sent_requests` table (the `id` autoincrement
column carries no semantics beyond row identity and is omitted). -/
structure SentRequest where
  profileURL : String
  note : String
  sentAt : Nat
  status : RequestStatus
deriving DecidableEq

/-- `MessageRecord` row of the `message_records` table. -/
structure MessageRecord where
  profileURL : String
  message : String
  sentAt : Nat
  templateUsed : String
deriving DecidableEq

/-- The two tables owned by `Storage` (storage.go, `InitDB`). -/
structure StorageState where
  sent_requests : List SentRequest
  message_records : List MessageRecord
deriving DecidableEq

def emptyStorage : StorageState := ⟨[], []⟩

/-- Errors surfaced by the storage layer in the model: the only constraint
that can fire is the UNIQUE key on `sent_requests.profile_url`
(`message_records` uses `ON CONFLICT IGNORE`, which never errors). -/
inductive StorageError where
  | duplicateKey
deriving DecidableEq

/-- `SaveSentRequest` (storage.go): `INSERT INTO sent_requests ...`; the
UNIQUE constraint on `profile_url` makes the insert fail if a row with the
same URL exists, otherwise the row is appended. -/
def SaveSentRequest (st : StorageState) (req : SentRequest) :
    Except StorageError StorageState :=
  if st.sent_requests.any (fun r => r.profileURL == req.profileURL) then
    .error .duplicateKey
  else
    .ok { st with sent_requests := st.sent_requests ++ [req] }

/-- `GetSentRequestByProfileURL` (storage.go): `SELECT ... WHERE
profile_url = ?`, `nil` when no row matches. -/
def GetSentRequestByProfileURL (st : StorageState) (profileURL : String) :
    Option SentRequest :=
  st.sent_requests.find? (fun r => r.profileURL == profileURL)

/-- `UpdateRequestStatus` (storage.go): `UPDATE sent_requests SET status =
? WHERE profile_url = ?`.  The UPDATE succeeds regardless of how many rows
match (there is no RowsAffected check), so the result is always `ok`. -/
def UpdateRequestStatus (st : StorageState) (profileURL : String)
    (status : RequestStatus) : Except StorageError StorageState :=
  .ok { st with
    sent_requests := st.sent_requests.map
      (fun r => if r.profileURL == profileURL then { r with status := status } else r) }

def secondsPerDay : Nat := 86400

/-- `time.Now().Format("2006-01-02") + " 00:00:00"`: midnight starting the
current day. -/
def startOfToday (now : Nat) : Nat := now / secondsPerDay * secondsPerDay

/-- `time.Now().Add(24 * time.Hour).Format("2006-01-02") + " 00:00:00"`:
midnight starting the next day. -/
def startOfTomorrow (now : Nat) : Nat :=
  (now + secondsPerDay) / secondsPerDay * secondsPerDay

/-- `GetCountOfSentRequestsToday` (storage.go): `SELECT COUNT(*) FROM
sent_requests WHERE sent_at >= today AND sent_at < tomorrow`. -/
def GetCountOfSentRequestsToday (st : StorageState) (now : Nat) : Nat :=
  st.sent_requests.countP
    (fun r => decide (startOfToday now ≤ r.sentAt ∧ r.sentAt < startOfTomorrow now))

/-- The `UNIQUE(profile_url, message, sent_at)` key of `message_records`. -/
def sameTriple (a b : MessageRecord) : Bool :=
  a.profileURL == b.profileURL && a.message == b.message && a.sentAt == b.sentAt

/-- `SaveMessageRecord` (storage.go): `INSERT INTO message_records ...`
under `UNIQUE(profile_url, message, sent_at) ON CONFLICT IGNORE`: an exact
duplicate of the key triple is silently dropped, anything else appends. -/
def SaveMessageRecord (st : StorageState) (msg : MessageRecord) : StorageState :=
  if st.message_records.any (fun m => sameTriple m msg) then
    st
  else
    { st with message_records := st.message_records ++ [msg] }

/-- Accumulator of `GetMessageRecord`: keep the row with the latest
`sent_at` (the `ORDER BY sent_at DESC LIMIT 1` of the query). -/
def pickLatest (acc : Option MessageRecord) (m : MessageRecord) :
    Option MessageRecord :=
  match acc with
  | none => some m
  | some best => if best.sentAt < m.sentAt then some m else some best

/-- `GetMessageRecord` (storage.go): `SELECT ... WHERE profile_url = ?
ORDER BY sent_at DESC LIMIT 1`, `nil` when no row matches. -/
def GetMessageRecord (st : StorageState) (profileURL : String) :
    Option MessageRecord :=
  (st.message_records.filter (fun m => m.profileURL == profileURL)).foldl
    pickLatest none

/-- `GetProfilesWithAcceptedRequestsWithoutMessage` (storage.go): left
anti-join — sent requests with status `accepted` having no message record
with the same profile URL. -/
def GetProfilesWithAcceptedRequestsWithoutMessage (st : StorageState) :
    List String :=
  (st.sent_requests.filter
      (fun r => r.status == RequestStatus.accepted &&
        st.message_records.all (fun m => m.profileURL != r.profileURL))).map
    (fun r => r.profileURL)

/-! ## Connection module (`connection` package) -/

/-- `ConnectionRequester`: the browser pointer is abstracted to the fact
that it was launched (`Browser != nil`); `DailyLimit` is the configured
daily ceiling (`NewConnectionRequester` sets 100). -/
structure ConnectionRequester where
  browserLaunched : Bool
  dailyLimit : Nat
deriving DecidableEq

/-- `NewConnectionRequester` with a launched browser and the default
daily limit of 100. -/
def NewConnectionRequester : ConnectionRequester := ⟨true, 100⟩

/-- Oracle for the browser/DOM interactions of `SendConnectionRequest`:
`pageOk` — `MustPage`/`MustWaitLoad` succeed; `connectButtonFound` — one of
the two connect-button selectors resolves; `addNoteButtonFound` — the
"Add a note" control is present (branch choice); `sendOk` — the remaining
`MustElement`/click/type interactions of the taken branch succeed. -/
structure PlatformEnv where
  pageOk : Bool
  connectButtonFound : Bool
  addNoteButtonFound : Bool
  sendOk : Bool
deriving DecidableEq

/-- Outcome of `SendConnectionRequest` as seen by the caller:
`alreadyProcessed` is the `nil` return after the dedup check (logging the
existing status), `quotaExceeded` the daily-limit error (carrying limit
and current count), `platformFailed` any error or `Must*` panic during the
browser interaction, `storageFailed` a failed `SaveSentRequest`, `sent`
the successful `nil` return. -/
inductive ConnectResult where
  | browserNotLaunched
  | alreadyProcessed (status : RequestStatus)
  | quotaExceeded (limit current : Nat)
  | platformFailed
  | storageFailed
  | sent
deriving DecidableEq

/-- `SendConnectionRequest` (connection package), in source order: browser
check; dedup lookup; daily-limit check; navigation; connect button; then
either the add-note branch — where the note is truncated to 300 (Go
`note[:300]`) before being typed — or the direct-send branch, where the
note is left untouched; finally `SaveSentRequest` with status `sent`. -/
def SendConnectionRequest (cr : ConnectionRequester) (env : PlatformEnv)
    (now : Nat) (st : StorageState) (profileURL note : String) :
    ConnectResult × StorageState :=
  if cr.browserLaunched then
    match GetSentRequestByProfileURL st profileURL with
    | some existing => (.alreadyProcessed existing.status, st)
    | none =>
      let requestsToday := GetCountOfSentRequestsToday st now
      if cr.dailyLimit ≤ requestsToday then
        (.quotaExceeded cr.dailyLimit requestsToday, st)
      else if env.pageOk then
        if env.connectButtonFound then
          if env.addNoteButtonFound then
            let note := if 300 < note.length then String.mk (note.data.take 300) else note
            if env.sendOk then
              match SaveSentRequest st ⟨profileURL, note, now, .sent⟩ with
              | .error _ => (.storageFailed, st)
              | .ok st2 => (.sent, st2)
            else (.platformFailed, st)
          else
            if env.sendOk then
              match SaveSentRequest st ⟨profileURL, note, now, .sent⟩ with
              | .error _ => (.storageFailed, st)
              | .ok st2 => (.sent, st2)
            else (.platformFailed, st)
        else (.platformFailed, st)
      else (.platformFailed, st)
  else (.browserNotLaunched, st)

/-! ## Template substitution (`messaging.go`, `applyTemplate`)

Strings are handled as character lists here so that the scanning
functions are structurally recursive (fuel = remaining length) and
kernel-evaluable.  Brace characters are spelled via their code points. -/

def lbrace : Char := Char.ofNat 123

def rbrace : Char := Char.ofNat 125

/-- `fmt.Sprintf` of a key between doubled braces, the placeholder text
searched by `applyTemplate`. -/
def placeholder (key : List Char) : List Char :=
  lbrace :: lbrace :: key ++ [rbrace, rbrace]

/-- Scanning core of Go `strings.ReplaceAll` for a non-empty pattern:
left-to-right, non-overlapping; the fuel bounds the recursion and never
runs out when it starts at the length of the subject. -/
def replaceAllFuel (old new : List Char) : Nat → List Char → List Char
  | 0, s => s
  | fuel + 1, s =>
    if old ≠ [] ∧ old.isPrefixOf s then
      new ++ replaceAllFuel old new fuel (s.drop old.length)
    else
      match s with
      | [] => []
      | c :: rest => c :: replaceAllFuel old new fuel rest

/-- Go `strings.ReplaceAll s old new` (an empty pattern inserts `new`
before and after every character, as in Go). -/
def replaceAll (s old new : List Char) : List Char :=
  if old = [] then new ++ (s.map (fun c => c :: new)).flatten
  else replaceAllFuel old new s.length s

/-- `applyTemplate` (messaging.go): one `strings.ReplaceAll` per map
entry, sequentially.  Go iterates the map in unspecified order; the model
takes the order of the association list, so each list order is one
admissible execution of the Go code. -/
def applyTemplate (template : List Char) (vars : List (List Char × List Char)) :
    List Char :=
  vars.foldl (fun result kv => replaceAll result (placeholder kv.1) kv.2) template

/-- Modelled from the spec sentence behind claim C10: one-pass
(simultaneous) substitution — scan the template once, replacing each
placeholder whose key is in the map by its value and copying everything
else (so unknown placeholders stay verbatim and the empty map is the
identity).  Used only to compare `applyTemplate` against the claim. -/
def substOnceFuel (vars : List (List Char × List Char)) : Nat → List Char → List Char
  | 0, s => s
  | fuel + 1, s =>
    match vars.find? (fun kv => (placeholder kv.1).isPrefixOf s) with
    | some kv => kv.2 ++ substOnceFuel vars fuel (s.drop (placeholder kv.1).length)
    | none =>
      match s with
      | [] => []
      | c :: rest => c :: substOnceFuel vars fuel rest

/-- Modelled from the spec (claim C10 reading): simultaneous one-pass
substitution of every known placeholder of the template. -/
def specApplyTemplate (template : List Char) (vars : List (List Char × List Char)) :
    List Char :=
  substOnceFuel vars template.length template

/-! ## Messaging module (`messaging.go`) -/

/-- Oracle for the DOM interactions of `SendFollowUpMessage`:
`browserLaunched` — `Browser != nil`; the three booleans say whether the
message button, the message input field and the send button resolve. -/
structure MessagingEnv where
  browserLaunched : Bool
  messageButtonFound : Bool
  messageInputFound : Bool
  sendButtonFound : Bool
deriving DecidableEq

/-- Outcome of `SendFollowUpMessage`: `alreadyMessaged` is the `nil`
return of the dedup check, `platformFailed` any selector failure, `sent`
the successful `nil` return after `SaveMessageRecord`. -/
inductive MessageResult where
  | browserNotLaunched
  | alreadyMessaged
  | platformFailed
  | sent
deriving DecidableEq

/-- `SendFollowUpMessage` (messaging.go), in source order: browser check;
existing-message lookup (soft no-op when present); template rendering;
message button, input field, send button; `SaveMessageRecord` with the
rendered message and the template for audit. -/
def SendFollowUpMessage (env : MessagingEnv) (now : Nat) (st : StorageState)
    (profileURL template : String) (vars : List (String × String)) :
    MessageResult × StorageState :=
  if env.browserLaunched then
    if (GetMessageRecord st profileURL).isSome then
      (.alreadyMessaged, st)
    else
      let message : String :=
        ⟨applyTemplate template.data (vars.map (fun kv => (kv.1.data, kv.2.data)))⟩
      if env.messageButtonFound then
        if env.messageInputFound then
          if env.sendButtonFound then
            (.sent, SaveMessageRecord st ⟨profileURL, message, now, template⟩)
          else (.platformFailed, st)
        else (.platformFailed, st)
      else (.platformFailed, st)
  else (.browserNotLaunched, st)

/-! ## Orchestrator (`main.go`, connect phase) -/

/-- The connect-phase loop of `main`: for each candidate URL call
`SendConnectionRequest` with the same note; an error is logged and the
loop continues with the next candidate.  Returns the final storage state
and the per-candidate results in order. -/
def runConnectPhase (cr : ConnectionRequester) (env : PlatformEnv) (now : Nat)
    (note : String) : StorageState → List String → StorageState × List ConnectResult
  | st, [] => (st, [])
  | st, url :: rest =>
    let res := SendConnectionRequest cr env now st url note
    let tail := runConnectPhase cr env now note res.2 rest
    (tail.1, res.1 :: tail.2)

/-- A 301-character note, above the 300-character cap. -/
def longNote : String := ⟨List.replicate 301 'a'⟩

/-! ## Helper lemmas -/

/-- `SaveSentRequest` succeeds and appends when no row with the same
profile URL is present. -/
theorem save_of_find_none (st : StorageState) (req : SentRequest)
    (h : GetSentRequestByProfileURL st req.profileURL = none) :
    SaveSentRequest st req =
      .ok { st with sent_requests := st.sent_requests ++ [req] } := by
  rw [SaveSentRequest, if_neg]
  intro hany
  obtain ⟨r, hr, hbeq⟩ := List.any_eq_true.mp hany
  rw [GetSentRequestByProfileURL, List.find?_eq_none] at h
  exact h r hr hbeq

/-- Inversion of a successful `SendConnectionRequest`: the browser was
launched, no prior record existed, the quota was not reached, and the new
state appends exactly one `sent` record whose note is truncated only on
the add-note branch. -/
theorem sendConnection_sent_inv
    (cr : ConnectionRequester) (env : PlatformEnv) (now : Nat)
    (st st1 : StorageState) (url note : String)
    (h : SendConnectionRequest cr env now st url note = (.sent, st1)) :
    cr.browserLaunched = true ∧
    GetSentRequestByProfileURL st url = none ∧
    GetCountOfSentRequestsToday st now < cr.dailyLimit ∧
    st1 = { st with sent_requests := st.sent_requests ++
      [⟨url,
        (if env.addNoteButtonFound then
          (if 300 < note.length then ⟨note.data.take 300⟩ else note) else note),
        now, .sent⟩] } := by
  simp only [SendConnectionRequest] at h
  split at h
  case isFalse => simp at h
  case isTrue hb =>
    split at h
    case h_1 ex hfind => simp at h
    case h_2 hfind =>
      split at h
      case isTrue hq => simp at h
      case isFalse hq =>
        have hnone : GetSentRequestByProfileURL st url = none := hfind
        split at h
        case isFalse => simp at h
        case isTrue hpage =>
          split at h
          case isFalse => simp at h
          case isTrue hbtn =>
            split at h
            case isTrue hnotebtn =>
              split at h
              case isFalse => simp at h
              case isTrue hsend =>
                rw [save_of_find_none st _ hnone] at h
                simp only [Prod.mk.injEq] at h
                obtain ⟨-, rfl⟩ := h
                refine ⟨hb, hnone, Nat.lt_of_not_le hq, ?_⟩
                simp [hnotebtn]
            case isFalse hnotebtn =>
              split at h
              case isFalse => simp at h
              case isTrue hsend =>
                rw [save_of_find_none st _ hnone] at h
                simp only [Prod.mk.injEq] at h
                obtain ⟨-, rfl⟩ := h
                refine ⟨hb, hnone, Nat.lt_of_not_le hq, ?_⟩
                simp [hnotebtn]

/-- `find?` skips a prefix on which it finds nothing. -/
theorem find?_append_of_none {α} (p : α → Bool) (l1 l2 : List α)
    (h : l1.find? p = none) : (l1 ++ l2).find? p = l2.find? p := by
  induction l1 with
  | nil => rfl
  | cons a l ih =>
    cases hpa : p a with
    | true => simp [List.find?_cons, hpa] at h
    | false =>
      rw [List.find?_cons, hpa] at h
      simp [List.find?_cons, hpa, ih h]

/-! ## Claims -/

/-- C1: for every profileURL, calling `SendConnectionRequest` twice with
any notes yields exactly one persisted outreach record; the second call
(with any note, environment, and time) returns the already-processed
no-op carrying the current status (`sent`) and leaves storage unchanged
— a soft no-op, not a hard failure. -/
theorem requestConnection_dedup
    (cr : ConnectionRequester) (env env2 : PlatformEnv) (now now2 : Nat)
    (st st1 : StorageState) (url note note2 : String)
    (h : SendConnectionRequest cr env now st url note = (.sent, st1)) :
    (st1.sent_requests.filter (fun r => r.profileURL == url)).length = 1 ∧
    SendConnectionRequest cr env2 now2 st1 url note2 =
      (.alreadyProcessed .sent, st1) := by
  obtain ⟨hb, hnone, -, rfl⟩ := sendConnection_sent_inv cr env now st st1 url note h
  rw [GetSentRequestByProfileURL] at hnone
  have hfind1 :
      GetSentRequestByProfileURL
        { st with sent_requests := st.sent_requests ++
          [⟨url,
            (if env.addNoteButtonFound then
              (if 300 < note.length then ⟨note.data.take 300⟩ else note) else note),
            now, .sent⟩] } url =
      some ⟨url,
        (if env.addNoteButtonFound then
          (if 300 < note.length then ⟨note.data.take 300⟩ else note) else note),
        now, .sent⟩ := by
    rw [GetSentRequestByProfileURL]
    rw [find?_append_of_none _ _ _ hnone]
    simp [List.find?_cons]
  constructor
  · have hnil : st.sent_requests.filter (fun r => r.profileURL == url) = [] := by
      rw [List.filter_eq_nil_iff]
      exact List.find?_eq_none.mp hnone
    simp [List.filter_append, hnil]
  · simp only [SendConnectionRequest, hb, if_true]
    rw [hfind1]

/-- C1 witness: concrete run — first request persists one record, the
repeat request is the already-processed no-op. -/
theorem requestConnection_dedup_witness :
    ((⟨[⟨"https://x/in/a", "hi", 0, .sent⟩], []⟩ : StorageState).sent_requests.filter
        (fun r => r.profileURL == "https://x/in/a")).length = 1 ∧
    SendConnectionRequest ⟨true, 100⟩ ⟨true, true, true, true⟩ 5
        ⟨[⟨"https://x/in/a", "hi", 0, .sent⟩], []⟩ "https://x/in/a" "bye" =
      (.alreadyProcessed .sent, ⟨[⟨"https://x/in/a", "hi", 0, .sent⟩], []⟩) :=
  requestConnection_dedup ⟨true, 100⟩ ⟨true, true, true, true⟩ ⟨true, true, true, true⟩
    0 5 emptyStorage ⟨[⟨"https://x/in/a", "hi", 0, .sent⟩], []⟩
    "https://x/in/a" "hi" "bye" rfl

/-- When the dedup check passes but today's count has reached the daily
limit, `SendConnectionRequest` returns the quota error carrying the limit
and the current count, and leaves storage untouched. -/
theorem sendConnection_quota_hit
    (cr : ConnectionRequester) (env : PlatformEnv) (now : Nat)
    (st : StorageState) (url note : String)
    (hb : cr.browserLaunched = true)
    (hnone : GetSentRequestByProfileURL st url = none)
    (hq : cr.dailyLimit ≤ GetCountOfSentRequestsToday st now) :
    SendConnectionRequest cr env now st url note =
      (.quotaExceeded cr.dailyLimit (GetCountOfSentRequestsToday st now), st) := by
  simp only [SendConnectionRequest, hb, if_true]
  rw [hnone]
  simp [hq]

/-- The instant `now` lies inside the day window `[startOfToday now,
startOfTomorrow now)` used by `GetCountOfSentRequestsToday`. -/
theorem now_in_today_window (now : Nat) :
    startOfToday now ≤ now ∧ now < startOfTomorrow now := by
  simp only [startOfToday, startOfTomorrow, secondsPerDay]
  omega

/-- C2: with `dailyLimit = N`, once today's count has reached N a further
`SendConnectionRequest` (the (N+1)-th of the day) returns `QuotaExceeded`
carrying the limit and current count without mutating the ledger;
permission is exactly `count < dailyLimit` (the call yields the quota
error iff the count is not below the limit); and each successful call
raises today's count by one, so N successes bring the count to N. -/
theorem requestConnection_quota
    (cr : ConnectionRequester) (env : PlatformEnv) (now : Nat)
    (st : StorageState) (url note : String)
    (hb : cr.browserLaunched = true)
    (hnone : GetSentRequestByProfileURL st url = none) :
    (cr.dailyLimit ≤ GetCountOfSentRequestsToday st now →
      SendConnectionRequest cr env now st url note =
        (.quotaExceeded cr.dailyLimit (GetCountOfSentRequestsToday st now), st)) ∧
    ((SendConnectionRequest cr env now st url note).1 =
        .quotaExceeded cr.dailyLimit (GetCountOfSentRequestsToday st now) ↔
      ¬ GetCountOfSentRequestsToday st now < cr.dailyLimit) ∧
    (∀ st1, SendConnectionRequest cr env now st url note = (.sent, st1) →
      GetCountOfSentRequestsToday st1 now = GetCountOfSentRequestsToday st now + 1) := by
  refine ⟨fun hq => sendConnection_quota_hit cr env now st url note hb hnone hq, ?_, ?_⟩
  · by_cases hq : cr.dailyLimit ≤ GetCountOfSentRequestsToday st now
    · rw [sendConnection_quota_hit cr env now st url note hb hnone hq]
      simpa using Nat.not_lt.mpr hq
    · apply iff_of_false _ (not_not_intro (Nat.lt_of_not_le hq))
      intro heq
      simp only [SendConnectionRequest, hb, if_true] at heq
      rw [hnone] at heq
      rw [if_neg hq] at heq
      repeat' split at heq
      all_goals simp at heq
  · intro st1 h
    obtain ⟨-, -, -, rfl⟩ := sendConnection_sent_inv cr env now st st1 url note h
    obtain ⟨h1, h2⟩ := now_in_today_window now
    simp only [GetCountOfSentRequestsToday, List.countP_append, List.countP_cons,
      List.countP_nil]
    simp [h1, h2]

/-- C2 witness: the §8 scenario — dailyLimit 2, two requests already sent
today, the third returns `QuotaExceeded(2, 2)` with storage unchanged. -/
theorem requestConnection_quota_witness :
    SendConnectionRequest ⟨true, 2⟩ ⟨true, true, true, true⟩ 7
        ⟨[⟨"https://x/in/a", "hi", 0, .sent⟩, ⟨"https://x/in/b", "hi", 3, .sent⟩], []⟩
        "https://x/in/c" "hi" =
      (.quotaExceeded 2 2,
        ⟨[⟨"https://x/in/a", "hi", 0, .sent⟩, ⟨"https://x/in/b", "hi", 3, .sent⟩], []⟩) :=
  (requestConnection_quota ⟨true, 2⟩ ⟨true, true, true, true⟩ 7
    ⟨[⟨"https://x/in/a", "hi", 0, .sent⟩, ⟨"https://x/in/b", "hi", 3, .sent⟩], []⟩
    "https://x/in/c" "hi" rfl rfl).1 (by decide)

/-- C3 counterexample: on a profileURL with no outreach record,
`UpdateRequestStatus` does not fail with `NotFound` — the UPDATE matches
zero rows and the call returns success with storage unchanged. -/
theorem updateRequestStatus_missing_succeeds :
    GetSentRequestByProfileURL emptyStorage "https://x/in/a" = none ∧
    UpdateRequestStatus emptyStorage "https://x/in/a" .accepted = .ok emptyStorage :=
  ⟨rfl, rfl⟩

/-- Updating rows none of which match the URL is the identity. -/
theorem map_update_of_no_match (l : List SentRequest) (url : String)
    (status : RequestStatus)
    (h : ∀ r ∈ l, ¬ (r.profileURL == url) = true) :
    l.map (fun r => if r.profileURL == url then { r with status := status } else r)
      = l := by
  induction l with
  | nil => rfl
  | cons a l ih =>
    rw [List.map_cons, if_neg (h a (by simp)), ih]
    intro r hr
    exact h r (by simp [hr])

/-- The per-row status update is idempotent under `map`. -/
theorem map_update_idem (l : List SentRequest) (url : String)
    (status : RequestStatus) :
    (l.map (fun r => if r.profileURL == url then { r with status := status } else r)).map
        (fun r => if r.profileURL == url then { r with status := status } else r)
      = l.map (fun r => if r.profileURL == url then { r with status := status } else r) := by
  induction l with
  | nil => rfl
  | cons a l ih =>
    simp only [List.map_cons, ih]
    by_cases hif : (a.profileURL == url) = true
    · simp [hif]
    · simp [hif]

/-- URL lookup on a cons whose head matches. -/
theorem find?_url_cons_pos (url : String) (a : SentRequest) (l : List SentRequest)
    (h : (a.profileURL == url) = true) :
    (a :: l).find? (fun x => x.profileURL == url) = some a := by
  simp [List.find?_cons, h]

/-- URL lookup on a cons whose head does not match. -/
theorem find?_url_cons_neg (url : String) (a : SentRequest) (l : List SentRequest)
    (h : (a.profileURL == url) = false) :
    (a :: l).find? (fun x => x.profileURL == url)
      = l.find? (fun x => x.profileURL == url) := by
  simp [List.find?_cons, h]

/-- A record found by URL in the updated table carries the new status. -/
theorem find_update_status (l : List SentRequest) (url : String)
    (status : RequestStatus) (r : SentRequest)
    (h : (l.map (fun x => if x.profileURL == url then { x with status := status } else x)).find?
        (fun x => x.profileURL == url) = some r) :
    r.status = status := by
  induction l with
  | nil => simp at h
  | cons a l ih =>
    by_cases hif : (a.profileURL == url) = true
    · rw [List.map_cons, if_pos hif,
        find?_url_cons_pos url { a with status := status } _ hif] at h
      injection h with h2
      subst h2
      rfl
    · have hfalse : (a.profileURL == url) = false := by simpa using hif
      rw [List.map_cons, if_neg hif, find?_url_cons_neg url a _ hfalse] at h
      exact ih h

/-- C3 amended: `UpdateRequestStatus` never fails with `NotFound`: on a
profileURL with no record it succeeds and leaves storage unchanged (the
UPDATE matches zero rows); on an existing record it sets the status; it
is idempotent for repeated identical status. -/
theorem updateRequestStatus_amended
    (st : StorageState) (url : String) (status : RequestStatus) :
    (GetSentRequestByProfileURL st url = none →
      UpdateRequestStatus st url status = .ok st) ∧
    (∀ st2, UpdateRequestStatus st url status = .ok st2 →
      UpdateRequestStatus st2 url status = .ok st2) ∧
    (∀ st2 r, UpdateRequestStatus st url status = .ok st2 →
      GetSentRequestByProfileURL st2 url = some r → r.status = status) := by
  refine ⟨?_, ?_, ?_⟩
  · intro hnone
    rw [GetSentRequestByProfileURL, List.find?_eq_none] at hnone
    rw [UpdateRequestStatus, map_update_of_no_match st.sent_requests url status hnone]
  · intro st2 h
    rw [UpdateRequestStatus] at h
    injection h with h2
    subst h2
    rw [UpdateRequestStatus]
    simp only [map_update_idem]
  · intro st2 r h hfind
    rw [UpdateRequestStatus] at h
    injection h with h2
    subst h2
    rw [GetSentRequestByProfileURL] at hfind
    exact find_update_status st.sent_requests url status r hfind

/-- C3 witness: the no-record update succeeds untouched, and an
existing record's status is set by the update. -/
theorem updateRequestStatus_amended_witness :
    UpdateRequestStatus emptyStorage "https://x/in/b" .sent = .ok emptyStorage ∧
    (⟨"https://x/in/a", "hi", 0, .accepted⟩ : SentRequest).status = .accepted :=
  ⟨(updateRequestStatus_amended emptyStorage "https://x/in/b" .sent).1 rfl,
    (updateRequestStatus_amended ⟨[⟨"https://x/in/a", "hi", 0, .sent⟩], []⟩
        "https://x/in/a" .accepted).2.2
      ⟨[⟨"https://x/in/a", "hi", 0, .accepted⟩], []⟩
      ⟨"https://x/in/a", "hi", 0, .accepted⟩ rfl rfl⟩

set_option maxRecDepth 8000 in
/-- C4 counterexample: when the "Add a note" control is absent (the
direct-send branch), a 301-character note is persisted unchanged — the
truncation to the 300 cap does not happen on this path. -/
theorem note_truncation_counterexample :
    300 < longNote.length ∧
    (SendConnectionRequest ⟨true, 100⟩ ⟨true, true, false, true⟩ 0 emptyStorage
        "https://x/in/a" longNote).2.sent_requests
      = [⟨"https://x/in/a", longNote, 0, .sent⟩] :=
  ⟨by decide, rfl⟩

/-- C4 amended: the note is truncated to exactly the 300-character cap
before persistence (and before being typed) only on the add-note branch;
on the direct-send branch the note is persisted unchanged even when it
exceeds the cap; a note within the cap is always persisted unchanged. -/
theorem note_truncation_amended
    (cr : ConnectionRequester) (env : PlatformEnv) (now : Nat)
    (st st1 : StorageState) (url note : String)
    (h : SendConnectionRequest cr env now st url note = (.sent, st1)) :
    (env.addNoteButtonFound = true → 300 < note.length →
      st1.sent_requests.getLast? = some ⟨url, ⟨note.data.take 300⟩, now, .sent⟩ ∧
      (⟨note.data.take 300⟩ : String).length = 300) ∧
    (env.addNoteButtonFound = true → note.length ≤ 300 →
      st1.sent_requests.getLast? = some ⟨url, note, now, .sent⟩) ∧
    (env.addNoteButtonFound = false →
      st1.sent_requests.getLast? = some ⟨url, note, now, .sent⟩) := by
  obtain ⟨-, -, -, rfl⟩ := sendConnection_sent_inv cr env now st st1 url note h
  refine ⟨fun hbn hlen => ⟨?_, ?_⟩, fun hbn hlen => ?_, fun hbn => ?_⟩
  · simp [List.getLast?_concat, hbn, hlen]
  · have hlen2 : 300 < note.data.length := hlen
    show (note.data.take 300).length = 300
    rw [List.length_take]
    omega
  · simp [List.getLast?_concat, hbn, Nat.not_lt.mpr hlen]
  · simp [List.getLast?_concat, hbn]

set_option maxRecDepth 8000 in
/-- C4 witness: on the add-note branch a 301-character note is persisted
truncated to exactly 300 characters. -/
theorem note_truncation_amended_witness :
    (⟨[⟨"https://x/in/u", ⟨longNote.data.take 300⟩, 0, .sent⟩], []⟩
        : StorageState).sent_requests.getLast?
      = some ⟨"https://x/in/u", ⟨longNote.data.take 300⟩, 0, .sent⟩ ∧
    (⟨longNote.data.take 300⟩ : String).length = 300 :=
  (note_truncation_amended ⟨true, 100⟩ ⟨true, true, true, true⟩ 0 emptyStorage
    ⟨[⟨"https://x/in/u", ⟨longNote.data.take 300⟩, 0, .sent⟩], []⟩
    "https://x/in/u" longNote (by rfl)).1 rfl (by decide)

/-- C5 counterexample: with the daily limit exhausted (limit 0), the
connect-phase loop of `main` still attempts `SendConnectionRequest` for
the second candidate after the first call returned `QuotaExceeded` — it
does not halt the phase. -/
theorem connectPhase_counterexample :
    (runConnectPhase ⟨true, 0⟩ ⟨true, true, true, true⟩ 0 "hi" emptyStorage
        ["https://x/in/a", "https://x/in/b"]).2
      = [.quotaExceeded 0 0, .quotaExceeded 0 0] := rfl

/-- C5 amended: on `QuotaExceeded` the orchestrator logs the error and
continues with the next candidate (skip-and-continue, not a halt): with
the quota already exhausted every candidate is still attempted, each call
returns `QuotaExceeded` (or the already-processed no-op for recorded
profiles), the ledger is never mutated, and the process does not crash. -/
theorem connectPhase_amended
    (cr : ConnectionRequester) (env : PlatformEnv) (now : Nat) (note : String)
    (st : StorageState) (urls : List String)
    (hb : cr.browserLaunched = true)
    (hq : cr.dailyLimit ≤ GetCountOfSentRequestsToday st now) :
    runConnectPhase cr env now note st urls =
      (st, urls.map (fun u =>
        match GetSentRequestByProfileURL st u with
        | some r => ConnectResult.alreadyProcessed r.status
        | none => ConnectResult.quotaExceeded cr.dailyLimit
            (GetCountOfSentRequestsToday st now))) := by
  induction urls with
  | nil => rfl
  | cons u rest ih =>
    have hstep : SendConnectionRequest cr env now st u note =
        (match GetSentRequestByProfileURL st u with
         | some r => ConnectResult.alreadyProcessed r.status
         | none => ConnectResult.quotaExceeded cr.dailyLimit
             (GetCountOfSentRequestsToday st now), st) := by
      cases hfind : GetSentRequestByProfileURL st u with
      | some r =>
        simp only [SendConnectionRequest, hb, if_true]
        rw [hfind]
      | none =>
        rw [sendConnection_quota_hit cr env now st u note hb hfind hq]
    simp only [runConnectPhase, hstep, List.map_cons]
    rw [ih]

/-- C5 witness: one recorded profile and an exhausted limit of 1 — both
candidates are attempted, the ledger is unchanged. -/
theorem connectPhase_amended_witness :
    runConnectPhase ⟨true, 1⟩ ⟨true, true, true, true⟩ 0 "hi"
        ⟨[⟨"https://x/in/a", "hi", 0, .sent⟩], []⟩
        ["https://x/in/a", "https://x/in/c"]
      = (⟨[⟨"https://x/in/a", "hi", 0, .sent⟩], []⟩,
          [.alreadyProcessed .sent, .quotaExceeded 1 1]) :=
  connectPhase_amended ⟨true, 1⟩ ⟨true, true, true, true⟩ 0 "hi"
    ⟨[⟨"https://x/in/a", "hi", 0, .sent⟩], []⟩
    ["https://x/in/a", "https://x/in/c"] rfl (by decide)

/-- Membership in the accepted-without-message list: exactly the URLs of
accepted outreach records with no message record. -/
theorem mem_acceptedWithoutMessage (st : StorageState) (url : String) :
    url ∈ GetProfilesWithAcceptedRequestsWithoutMessage st ↔
      (∃ r ∈ st.sent_requests, r.profileURL = url ∧ r.status = .accepted) ∧
      ∀ m ∈ st.message_records, m.profileURL ≠ url := by
  rw [GetProfilesWithAcceptedRequestsWithoutMessage]
  simp only [List.mem_map, List.mem_filter, Bool.and_eq_true, beq_iff_eq,
    List.all_eq_true, bne_iff_ne, ne_eq]
  constructor
  · rintro ⟨r, ⟨hr, hacc, hall⟩, rfl⟩
    exact ⟨⟨r, hr, rfl, hacc⟩, fun m hm => hall m hm⟩
  · rintro ⟨⟨r, hr, hre, hacc⟩, hall⟩
    refine ⟨r, ⟨hr, hacc, fun m hm => ?_⟩, hre⟩
    rw [hre]
    exact hall m hm

/-- After `SaveMessageRecord`, some stored message carries the saved
profile URL (either the fresh row or the pre-existing duplicate). -/
theorem saveMessage_has_profile (st : StorageState) (m : MessageRecord) :
    ∃ m2 ∈ (SaveMessageRecord st m).message_records,
      m2.profileURL = m.profileURL := by
  rw [SaveMessageRecord]
  split
  case isTrue hany =>
    obtain ⟨m2, hm2, ht⟩ := List.any_eq_true.mp hany
    simp only [sameTriple, Bool.and_eq_true, beq_iff_eq] at ht
    exact ⟨m2, hm2, ht.1.1⟩
  case isFalse =>
    exact ⟨m, by simp, rfl⟩

/-- C6: a profileURL appears in
`GetProfilesWithAcceptedRequestsWithoutMessage` iff it has an outreach
record with status `accepted` and zero message records; in particular,
once a message record is saved for such a profile it no longer appears. -/
theorem acceptedWithoutMessage_correct (st : StorageState) (url : String) :
    (url ∈ GetProfilesWithAcceptedRequestsWithoutMessage st ↔
      (∃ r ∈ st.sent_requests, r.profileURL = url ∧ r.status = .accepted) ∧
      ∀ m ∈ st.message_records, m.profileURL ≠ url) ∧
    ∀ m : MessageRecord, m.profileURL = url →
      url ∉ GetProfilesWithAcceptedRequestsWithoutMessage (SaveMessageRecord st m) := by
  refine ⟨mem_acceptedWithoutMessage st url, ?_⟩
  intro m hm
  rw [mem_acceptedWithoutMessage]
  rintro ⟨-, hall⟩
  obtain ⟨m2, hm2, hp⟩ := saveMessage_has_profile st m
  exact hall m2 hm2 (hp.trans hm)

/-- C6 witness: an accepted profile stops appearing in the queue once a
message record for it is saved. -/
theorem acceptedWithoutMessage_correct_witness :
    "https://x/in/a" ∉ GetProfilesWithAcceptedRequestsWithoutMessage
      (SaveMessageRecord ⟨[⟨"https://x/in/a", "hi", 0, .accepted⟩], []⟩
        ⟨"https://x/in/a", "msg", 1, "t"⟩) :=
  (acceptedWithoutMessage_correct ⟨[⟨"https://x/in/a", "hi", 0, .accepted⟩], []⟩
    "https://x/in/a").2 ⟨"https://x/in/a", "msg", 1, "t"⟩ rfl

/-- C7: `SaveMessageRecord` keeps conflict-ignore semantics on the
`(profileURL, message, sentAt)` triple: after a save a row with the saved
triple is stored; saving the exact same record again is a successful
no-op; and a second record for the same profileURL with a distinct
message or time is appended, not blocked. -/
theorem saveMessage_conflict_ignore (st : StorageState) (m : MessageRecord) :
    (∃ m2 ∈ (SaveMessageRecord st m).message_records, sameTriple m2 m = true) ∧
    SaveMessageRecord (SaveMessageRecord st m) m = SaveMessageRecord st m ∧
    ∀ m2 : MessageRecord,
      m2.profileURL = m.profileURL →
      (m2.message ≠ m.message ∨ m2.sentAt ≠ m.sentAt) →
      st.message_records.any (fun x => sameTriple x m) = false →
      st.message_records.any (fun x => sameTriple x m2) = false →
      (SaveMessageRecord (SaveMessageRecord st m) m2).message_records
        = st.message_records ++ [m, m2] := by
  refine ⟨?_, ?_, ?_⟩
  · rw [SaveMessageRecord]
    split
    case isTrue hany => exact List.any_eq_true.mp hany
    case isFalse => exact ⟨m, by simp, by simp [sameTriple]⟩
  · by_cases hany : st.message_records.any (fun x => sameTriple x m) = true
    · have h1 : SaveMessageRecord st m = st := by rw [SaveMessageRecord, if_pos hany]
      rw [h1]
      exact h1
    · have h1 : SaveMessageRecord st m =
          { st with message_records := st.message_records ++ [m] } := by
        rw [SaveMessageRecord, if_neg hany]
      have h2 : ({ st with message_records := st.message_records ++ [m] }
          : StorageState).message_records.any (fun x => sameTriple x m) = true := by
        rw [List.any_append]
        simp [sameTriple]
      rw [h1, SaveMessageRecord, if_pos h2]
  · intro m2 hp hdiff hany_m hany_m2
    have h1 : SaveMessageRecord st m =
        { st with message_records := st.message_records ++ [m] } := by
      rw [SaveMessageRecord, if_neg]
      simp [hany_m]
    rw [h1, SaveMessageRecord, if_neg]
    · simp
    · rw [List.any_append]
      simp only [Bool.or_eq_true, List.any_cons, List.any_nil, Bool.or_false]
      rintro (habs | habs)
      · rw [hany_m2] at habs
        exact Bool.false_ne_true habs
      · simp only [sameTriple, Bool.and_eq_true, beq_iff_eq] at habs
        rcases hdiff with hd | hd
        · exact hd habs.1.2.symm
        · exact hd habs.2.symm

/-- C7 witness: an exact duplicate is ignored while a distinct second
message to the same profile is appended. -/
theorem saveMessage_conflict_ignore_witness :
    (SaveMessageRecord
        (SaveMessageRecord emptyStorage ⟨"https://x/in/a", "hello", 5, "t"⟩)
        ⟨"https://x/in/a", "more", 6, "t"⟩).message_records
      = [⟨"https://x/in/a", "hello", 5, "t"⟩, ⟨"https://x/in/a", "more", 6, "t"⟩] :=
  (saveMessage_conflict_ignore emptyStorage ⟨"https://x/in/a", "hello", 5, "t"⟩).2.2
    ⟨"https://x/in/a", "more", 6, "t"⟩ rfl (Or.inl (by decide)) rfl rfl

/-- Folding `pickLatest` from a `some` accumulator stays `some`. -/
theorem foldl_pickLatest_some (l : List MessageRecord) (b : MessageRecord) :
    ∃ c, l.foldl pickLatest (some b) = some c := by
  induction l generalizing b with
  | nil => exact ⟨b, rfl⟩
  | cons m l ih =>
    rw [List.foldl_cons]
    show ∃ c, l.foldl pickLatest
      (if b.sentAt < m.sentAt then some m else some b) = some c
    by_cases hlt : b.sentAt < m.sentAt
    · rw [if_pos hlt]
      exact ih m
    · rw [if_neg hlt]
      exact ih b

/-- A stored message with the queried URL makes `GetMessageRecord`
return a row. -/
theorem getMessageRecord_isSome_of_mem (st : StorageState) (url : String)
    (m : MessageRecord) (hm : m ∈ st.message_records) (hp : m.profileURL = url) :
    (GetMessageRecord st url).isSome = true := by
  rw [GetMessageRecord]
  have hmem : m ∈ st.message_records.filter (fun x => x.profileURL == url) := by
    rw [List.mem_filter]
    exact ⟨hm, by simp [hp]⟩
  cases hfil : st.message_records.filter (fun x => x.profileURL == url) with
  | nil =>
    rw [hfil] at hmem
    simp at hmem
  | cons a l =>
    rw [List.foldl_cons]
    obtain ⟨c, hc⟩ := foldl_pickLatest_some l a
    show (l.foldl pickLatest (some a)).isSome = true
    rw [hc]
    rfl

/-- If `GetMessageRecord` finds nothing, no stored message carries the
queried URL. -/
theorem getMessageRecord_none_filter (st : StorageState) (url : String)
    (h : GetMessageRecord st url = none) :
    st.message_records.filter (fun m => m.profileURL == url) = [] := by
  cases hfil : st.message_records.filter (fun m => m.profileURL == url) with
  | nil => rfl
  | cons a l =>
    exfalso
    rw [GetMessageRecord, hfil, List.foldl_cons] at h
    obtain ⟨c, hc⟩ := foldl_pickLatest_some l a
    rw [show pickLatest none a = some a from rfl, hc] at h
    exact Option.some_ne_none c h

/-- C8: when at least one message record exists for a profileURL,
`SendFollowUpMessage` performs no platform action, stores nothing, and
returns the successful no-op; consequently repeated calls never grow the
message table beyond one record per profile (dedup invariant). -/
theorem followUp_at_most_one
    (env : MessagingEnv) (now : Nat) (st : StorageState)
    (url template : String) (vars : List (String × String))
    (hb : env.browserLaunched = true) :
    ((∃ m ∈ st.message_records, m.profileURL = url) →
      SendFollowUpMessage env now st url template vars = (.alreadyMessaged, st)) ∧
    ((st.message_records.filter (fun m => m.profileURL == url)).length ≤ 1 →
      ((SendFollowUpMessage env now st url template vars).2.message_records.filter
        (fun m => m.profileURL == url)).length ≤ 1) := by
  constructor
  · rintro ⟨m, hm, hp⟩
    have hsome := getMessageRecord_isSome_of_mem st url m hm hp
    simp [SendFollowUpMessage, hb, hsome]
  · intro hcount
    by_cases hsome : (GetMessageRecord st url).isSome = true
    · simp [SendFollowUpMessage, hb, hsome]
      exact hcount
    · have hnone : GetMessageRecord st url = none := by
        cases hgm : GetMessageRecord st url with
        | none => rfl
        | some x =>
          rw [hgm] at hsome
          simp at hsome
      have hfil := getMessageRecord_none_filter st url hnone
      simp only [SendFollowUpMessage, hb, if_true, hnone, Option.isSome_none,
        Bool.false_eq_true, if_false]
      cases hmb : env.messageButtonFound <;>
        cases hmi : env.messageInputFound <;>
          cases hsb : env.sendButtonFound <;>
            simp [hfil]
      rw [SaveMessageRecord]
      split
      · simp [hfil]
      · simp [List.filter_append, hfil]

/-- C8 witness: a profile with a stored message gets the soft no-op and
an unchanged table. -/
theorem followUp_at_most_one_witness :
    SendFollowUpMessage ⟨true, true, true, true⟩ 3
        ⟨[], [⟨"https://x/in/a", "hi", 0, "t"⟩]⟩ "https://x/in/a" "t2" []
      = (.alreadyMessaged, ⟨[], [⟨"https://x/in/a", "hi", 0, "t"⟩]⟩) :=
  (followUp_at_most_one ⟨true, true, true, true⟩ 3
    ⟨[], [⟨"https://x/in/a", "hi", 0, "t"⟩]⟩ "https://x/in/a" "t2" [] rfl).1
    ⟨⟨"https://x/in/a", "hi", 0, "t"⟩, by simp, rfl⟩

/-- C9: once dedup and quota checks pass, any platform failure (page
load, connect button, or the later interactions) surfaces as the platform
failure result and the ledger is not written — the state is unchanged and
no outreach record exists for that profileURL, so a retry starts from the
same state as a first attempt. -/
theorem platformFailure_no_record
    (cr : ConnectionRequester) (env : PlatformEnv) (now : Nat)
    (st : StorageState) (url note : String)
    (hb : cr.browserLaunched = true)
    (hnone : GetSentRequestByProfileURL st url = none)
    (hq : GetCountOfSentRequestsToday st now < cr.dailyLimit)
    (hfail : env.pageOk = false ∨ env.connectButtonFound = false ∨ env.sendOk = false) :
    SendConnectionRequest cr env now st url note = (.platformFailed, st) ∧
    GetSentRequestByProfileURL (SendConnectionRequest cr env now st url note).2 url
      = none := by
  have hmain : SendConnectionRequest cr env now st url note = (.platformFailed, st) := by
    simp only [SendConnectionRequest, hb, if_true]
    rw [hnone, if_neg (Nat.not_le.mpr hq)]
    rcases hfail with hf | hf | hf <;>
      cases hp : env.pageOk <;> cases hc : env.connectButtonFound <;>
        cases hn : env.addNoteButtonFound <;> cases hs : env.sendOk <;>
          simp_all
  refine ⟨hmain, ?_⟩
  rw [hmain]
  exact hnone

/-- C9 witness: connect button missing — the call fails and no record is
persisted. -/
theorem platformFailure_no_record_witness :
    SendConnectionRequest ⟨true, 100⟩ ⟨true, false, true, true⟩ 0 emptyStorage
        "https://x/in/a" "hi" = (.platformFailed, emptyStorage) ∧
    GetSentRequestByProfileURL
        (SendConnectionRequest ⟨true, 100⟩ ⟨true, false, true, true⟩ 0 emptyStorage
          "https://x/in/a" "hi").2 "https://x/in/a" = none :=
  platformFailure_no_record ⟨true, 100⟩ ⟨true, false, true, true⟩ 0 emptyStorage
    "https://x/in/a" "hi" rfl rfl (by decide) (Or.inr (Or.inl rfl))

/-- C10 counterexample: with a template that is exactly the placeholder
of key A, and the map sending A to the placeholder of key B and B to the
letter x (in that iteration order), the sequential `ReplaceAll` fold
substitutes the just-inserted value of A again and returns x, while the
one-pass reading of the claim — every template placeholder replaced,
nothing else touched — yields the placeholder of B. -/
theorem applyTemplate_not_one_pass :
    applyTemplate (placeholder ['A']) [(['A'], placeholder ['B']), (['B'], ['x'])]
      = ['x'] ∧
    specApplyTemplate (placeholder ['A']) [(['A'], placeholder ['B']), (['B'], ['x'])]
      = placeholder ['B'] ∧
    (['x'] : List Char) ≠ placeholder ['B'] :=
  ⟨rfl, rfl, by decide⟩

/-- For one binding, the `ReplaceAll` scan and the one-pass substitution
scan are the same recursion. -/
theorem replaceAllFuel_eq_substOnceFuel (k v : List Char) (fuel : Nat)
    (s : List Char) :
    replaceAllFuel (placeholder k) v fuel s = substOnceFuel [(k, v)] fuel s := by
  induction fuel generalizing s with
  | zero => rfl
  | succ fuel ih =>
    simp only [replaceAllFuel, substOnceFuel]
    by_cases hpre : (placeholder k).isPrefixOf s = true
    · have hne : placeholder k ≠ [] := by simp [placeholder]
      rw [if_pos ⟨hne, hpre⟩]
      simp only [List.find?_cons, hpre, ih]
    · rw [if_neg (fun hand => hpre hand.2)]
      simp only [List.find?_cons, hpre]
      cases s with
      | nil => rfl
      | cons c rest =>
        simp only [List.find?_nil]
        show c :: replaceAllFuel (placeholder k) v fuel rest
          = c :: substOnceFuel [(k, v)] fuel rest
        rw [ih]

/-- C10 amended: `applyTemplate` is the sequential fold of
`strings.ReplaceAll` over the map entries (the list order standing for
one admissible Go map-iteration order): the empty map returns the
template unchanged, and a single-entry map agrees exactly with the
one-pass reading of the claim (every occurrence of the placeholder
replaced by the value, everything else verbatim); the general step
re-scans already substituted text, which is what breaks the one-pass
reading for maps with two or more interfering entries. -/
theorem applyTemplate_amended (t k v : List Char)
    (kv : List Char × List Char) (vars : List (List Char × List Char)) :
    applyTemplate t [] = t ∧
    applyTemplate t [(k, v)] = specApplyTemplate t [(k, v)] ∧
    applyTemplate t (kv :: vars)
      = applyTemplate (replaceAll t (placeholder kv.1) kv.2) vars := by
  refine ⟨rfl, ?_, rfl⟩
  show replaceAll t (placeholder k) v = specApplyTemplate t [(k, v)]
  rw [replaceAll, if_neg (by simp [placeholder])]
  exact replaceAllFuel_eq_substOnceFuel k v t.length t

end LinkedinAuto

